import Mathlib

/-!
Shallow embedding of the identity-federation credential core of the
tailscale Go API client (identityfederation.go), together with theorems
about its token validation, token exchange, caching and construction
behaviour.

Conventions of the embedding:
* Machine time instants (Go `time.Time`) are modelled as `Int` values
  counting nanoseconds since the Unix epoch; `time.Unix(sec, 0)` becomes
  `sec * nanosPerSec`, and `a.After(b)` becomes `b < a` (strict).
* Byte slices are `List Nat` (each entry < 256), strings are Lean
  `String`s; UTF-8 encoding/decoding is made explicit where the Go code
  crosses between the two.
* Fallible operations return `Option`/`Except`; each `fmt.Errorf` site
  in the Go source corresponds to one constructor of an error type,
  carrying exactly the data interpolated into the Go format string.
* The one network round trip and the identity-provider callback are the
  only effects of `Token`; they are modelled as an environment value
  (`TokenEnv`) consumed by the step function, which also reports how many
  times each effect was performed.
-/

/-- Number of nanoseconds in a second (`time.Second` in Go). -/
def nanosPerSec : Int := 1000000000

/-- UTF-8 encoding of a single unicode scalar value, as Go produces it. -/
def utf8EncodeChar (c : Char) : List Nat :=
  let n := c.toNat
  if n < 0x80 then [n]
  else if n < 0x800 then
    [0xC0 ||| (n >>> 6), 0x80 ||| (n &&& 0x3F)]
  else if n < 0x10000 then
    [0xE0 ||| (n >>> 12), 0x80 ||| ((n >>> 6) &&& 0x3F), 0x80 ||| (n &&& 0x3F)]
  else
    [0xF0 ||| (n >>> 18), 0x80 ||| ((n >>> 12) &&& 0x3F),
     0x80 ||| ((n >>> 6) &&& 0x3F), 0x80 ||| (n &&& 0x3F)]

/-- A byte 0x80..0xBF, i.e. a UTF-8 continuation byte. -/
def isUtf8Cont (b : Nat) : Bool := 0x80 ≤ b && b < 0xC0

/-- Whether a code point is a unicode scalar value (no surrogates). -/
def isScalar (n : Nat) : Bool := n < 0xD800 || (0xE000 ≤ n && n ≤ 0x10FFFF)

/-- UTF-8 decoding of a byte list; `none` on malformed input. -/
def utf8Decode : List Nat → Option (List Char)
  | [] => some []
  | b :: rest =>
    if b < 0x80 then
      (fun cs => Char.ofNat b :: cs) <$> utf8Decode rest
    else if b < 0xC2 then none
    else if b < 0xE0 then
      match rest with
      | b2 :: rest2 =>
        if isUtf8Cont b2 then
          (fun cs => Char.ofNat (((b - 0xC0) <<< 6) ||| (b2 - 0x80)) :: cs) <$> utf8Decode rest2
        else none
      | _ => none
    else if b < 0xF0 then
      match rest with
      | b2 :: b3 :: rest3 =>
        if isUtf8Cont b2 && isUtf8Cont b3 then
          let n := ((b - 0xE0) <<< 12) ||| ((b2 - 0x80) <<< 6) ||| (b3 - 0x80)
          if 0x800 ≤ n && isScalar n then
            (fun cs => Char.ofNat n :: cs) <$> utf8Decode rest3
          else none
        else none
      | _ => none
    else if b < 0xF5 then
      match rest with
      | b2 :: b3 :: b4 :: rest4 =>
        if isUtf8Cont b2 && isUtf8Cont b3 && isUtf8Cont b4 then
          let n := ((b - 0xF0) <<< 18) ||| ((b2 - 0x80) <<< 12) ||| ((b3 - 0x80) <<< 6) ||| (b4 - 0x80)
          if 0x10000 ≤ n && n ≤ 0x10FFFF then
            (fun cs => Char.ofNat n :: cs) <$> utf8Decode rest4
          else none
        else none
      | _ => none
    else none

/-- Value of one character of the base64url alphabet used by
`base64.RawURLEncoding`; `none` for characters outside the alphabet. -/
def b64Val (c : Char) : Option Nat :=
  let n := c.toNat
  if 65 ≤ n && n ≤ 90 then some (n - 65)
  else if 97 ≤ n && n ≤ 122 then some (n - 71)
  else if 48 ≤ n && n ≤ 57 then some (n + 4)
  else if n = 45 then some 62
  else if n = 95 then some 63
  else none

/-- Core of unpadded base64url decoding: processes quartets of symbols,
with a final group of 2 or 3 symbols allowed (as `RawURLEncoding` does);
a trailing group of 1 symbol, or any symbol outside the alphabet, fails. -/
def b64DecodeQuads : List Char → Option (List Nat)
  | [] => some []
  | [_] => none
  | [c1, c2] => do
    let v1 ← b64Val c1
    let v2 ← b64Val c2
    some [(v1 <<< 2) ||| (v2 >>> 4)]
  | [c1, c2, c3] => do
    let v1 ← b64Val c1
    let v2 ← b64Val c2
    let v3 ← b64Val c3
    some [(v1 <<< 2) ||| (v2 >>> 4), ((v2 &&& 0xF) <<< 4) ||| (v3 >>> 2)]
  | c1 :: c2 :: c3 :: c4 :: rest => do
    let v1 ← b64Val c1
    let v2 ← b64Val c2
    let v3 ← b64Val c3
    let v4 ← b64Val c4
    let tail ← b64DecodeQuads rest
    some (((v1 <<< 2) ||| (v2 >>> 4)) ::
          (((v2 &&& 0xF) <<< 4) ||| (v3 >>> 2)) ::
          (((v3 &&& 0x3) <<< 6) ||| v4) :: tail)

/-- `base64.RawURLEncoding.DecodeString`: ignores CR and LF characters,
then decodes the unpadded base64url symbol stream. -/
def base64UrlDecode (s : List Char) : Option (List Nat) :=
  b64DecodeQuads (s.filter (fun c => c ≠ '\n' && c ≠ '\r'))

/-- JSON values as `encoding/json` sees them.  A number records its exact
integer value when the literal is an optionally-signed digit string, and
`none` when it has a fraction or exponent part (in which case decoding it
into a Go integer field fails). -/
inductive Json where
  | null : Json
  | boolean (b : Bool) : Json
  | num (intVal : Option Int) : Json
  | str (s : String) : Json
  | arr (elems : List Json) : Json
  | obj (members : List (String × Json)) : Json
deriving Repr

/-- JSON insignificant whitespace. -/
def isJsonWs (c : Char) : Bool := c = ' ' || c = '\t' || c = '\n' || c = '\r'

/-- Drop leading JSON whitespace. -/
def skipWs : List Char → List Char
  | [] => []
  | c :: rest => if isJsonWs c then skipWs rest else c :: rest

/-- Value of one hexadecimal digit. -/
def hexVal (c : Char) : Option Nat :=
  let n := c.toNat
  if 48 ≤ n && n ≤ 57 then some (n - 48)
  else if 97 ≤ n && n ≤ 102 then some (n - 87)
  else if 65 ≤ n && n ≤ 70 then some (n - 55)
  else none

/-- Body of a JSON string literal, after the opening quote: collects
characters up to the closing quote, handling the JSON escape sequences. -/
def parseStringBody : List Char → Option (List Char × List Char)
  | [] => none
  | c :: rest =>
    if c = '"' then some ([], rest)
    else if c = '\\' then
      match rest with
      | [] => none
      | e :: rest2 =>
        if e = 'u' then
          match rest2 with
          | h1 :: h2 :: h3 :: h4 :: rest3 => do
            let a ← hexVal h1
            let b ← hexVal h2
            let cc ← hexVal h3
            let d ← hexVal h4
            let code := ((a * 16 + b) * 16 + cc) * 16 + d
            let ch := if isScalar code then Char.ofNat code else Char.ofNat 0xFFFD
            (fun p => (ch :: p.1, p.2)) <$> parseStringBody rest3
          | _ => none
        else do
          let ch ←
            if e = '"' then some '"'
            else if e = '\\' then some '\\'
            else if e = '/' then some '/'
            else if e = 'b' then some (Char.ofNat 8)
            else if e = 'f' then some (Char.ofNat 12)
            else if e = 'n' then some '\n'
            else if e = 'r' then some '\r'
            else if e = 't' then some '\t'
            else none
          (fun p => (ch :: p.1, p.2)) <$> parseStringBody rest2
    else if c.toNat < 0x20 then none
    else (fun p => (c :: p.1, p.2)) <$> parseStringBody rest

/-- Leading run of decimal digits of a character list. -/
def takeDigits : List Char → (List Char × List Char)
  | [] => ([], [])
  | c :: rest =>
    if c.isDigit then
      let p := takeDigits rest
      (c :: p.1, p.2)
    else ([], c :: rest)

/-- Numeric value of a digit string. -/
def digitsToNat (ds : List Char) : Nat :=
  ds.foldl (fun a c => a * 10 + (c.toNat - 48)) 0

/-- Exponent part of a JSON number, starting at the `e`/`E` character:
optional sign, then one or more digits.  Returns the remaining input. -/
def parseExpTail (s : List Char) : Option (List Char) :=
  match s with
  | _e :: rest =>
    let rest2 :=
      match rest with
      | '+' :: r => r
      | '-' :: r => r
      | _ => rest
    let p := takeDigits rest2
    if p.1 = [] then none else some p.2
  | [] => none

/-- A JSON number literal: optional minus sign, integer part with no
leading zeros, optional fraction, optional exponent.  The exact integer
value is kept only when there is no fraction and no exponent part. -/
def parseNumber (s : List Char) : Option (Json × List Char) :=
  let sp := match s with | '-' :: rest => (true, rest) | _ => (false, s)
  let neg := sp.1
  let s1 := sp.2
  match s1 with
  | [] => none
  | c :: _ =>
    if c.isDigit then
      let dq :=
        match s1 with
        | '0' :: rest => (['0'], rest)
        | _ => takeDigits s1
      let intDigits := dq.1
      let s2 := dq.2
      match s2 with
      | '.' :: rest =>
        let fr := takeDigits rest
        if fr.1 = [] then none
        else
          match fr.2 with
          | ch :: _ =>
            if ch = 'e' || ch = 'E' then
              (fun rem => (Json.num none, rem)) <$> parseExpTail fr.2
            else some (Json.num none, fr.2)
          | [] => some (Json.num none, [])
      | ch :: _ =>
        if ch = 'e' || ch = 'E' then
          (fun rem => (Json.num none, rem)) <$> parseExpTail s2
        else
          let v : Int := Int.ofNat (digitsToNat intDigits)
          some (Json.num (some (if neg then -v else v)), s2)
      | [] =>
        let v : Int := Int.ofNat (digitsToNat intDigits)
        some (Json.num (some (if neg then -v else v)), [])
    else none

mutual

/-- One JSON value, preceded by optional whitespace.  `fuel` bounds the
recursion depth; callers pass a fuel larger than any possible depth for
the given input. -/
def parseJsonValue : Nat → List Char → Option (Json × List Char)
  | 0, _ => none
  | Nat.succ fuel, s =>
    match skipWs s with
    | [] => none
    | c :: rest =>
      if c = 'n' then
        match rest with
        | 'u' :: 'l' :: 'l' :: rest2 => some (Json.null, rest2)
        | _ => none
      else if c = 't' then
        match rest with
        | 'r' :: 'u' :: 'e' :: rest2 => some (Json.boolean true, rest2)
        | _ => none
      else if c = 'f' then
        match rest with
        | 'a' :: 'l' :: 's' :: 'e' :: rest2 => some (Json.boolean false, rest2)
        | _ => none
      else if c = '"' then
        (fun p => (Json.str (String.mk p.1), p.2)) <$> parseStringBody rest
      else if c = '[' then
        match skipWs rest with
        | ']' :: rest2 => some (Json.arr [], rest2)
        | _ =>
          (fun p => (Json.arr p.1, p.2)) <$> parseJsonElems fuel rest
      else if c = '{' then
        match skipWs rest with
        | '}' :: rest2 => some (Json.obj [], rest2)
        | _ =>
          (fun p => (Json.obj p.1, p.2)) <$> parseJsonMembers fuel rest
      else
        parseNumber (c :: rest)

/-- One or more comma-separated array elements followed by `]`. -/
def parseJsonElems : Nat → List Char → Option (List Json × List Char)
  | 0, _ => none
  | Nat.succ fuel, s => do
    let (v, rest) ← parseJsonValue fuel s
    match skipWs rest with
    | ',' :: rest2 =>
      (fun p => (v :: p.1, p.2)) <$> parseJsonElems fuel rest2
    | ']' :: rest2 => some ([v], rest2)
    | _ => none

/-- One or more comma-separated object members followed by `}`. -/
def parseJsonMembers : Nat → List Char → Option (List (String × Json) × List Char)
  | 0, _ => none
  | Nat.succ fuel, s =>
    match skipWs s with
    | '"' :: rest => do
      let (key, rest2) ← parseStringBody rest
      match skipWs rest2 with
      | ':' :: rest3 => do
        let (v, rest4) ← parseJsonValue fuel rest3
        match skipWs rest4 with
        | ',' :: rest5 =>
          (fun p => ((String.mk key, v) :: p.1, p.2)) <$> parseJsonMembers fuel rest5
        | '}' :: rest5 => some ([(String.mk key, v)], rest5)
        | _ => none
      | _ => none
    | _ => none

end

/-- Looks up the value of a key in a decoded JSON object taking the last
occurrence, as `encoding/json` does for duplicate keys. -/
def jsonLookupLast (key : String) : List (String × Json) → Option Json
  | [] => none
  | kv :: rest =>
    match jsonLookupLast key rest with
    | some v => some v
    | none => if kv.1 = key then some kv.2 else none

/-- Smallest value of Go `int64`. -/
def int64Min : Int := -9223372036854775808

/-- Largest value of Go `int64`. -/
def int64Max : Int := 9223372036854775807

/-- Decoding of a JSON value into a Go `int64` field: only an exact
integer literal within `int64` range succeeds; JSON `null` leaves the
field at its zero value. -/
def jsonToInt64 : Json → Option Int
  | Json.num (some i) => if int64Min ≤ i ∧ i ≤ int64Max then some i else none
  | Json.null => some 0
  | _ => none

/-- Decoding of a JSON value into a Go `string` field. -/
def jsonToGoString : Json → Option String
  | Json.str s => some s
  | Json.null => some ("")
  | _ => none

/-- `strings.Split(s, ".")` for the single-character separator used by
the JWT code: every separator occurrence starts a new segment, and the
empty string yields one empty segment. -/
def splitOnChar (sep : Char) : List Char → List (List Char)
  | [] => [[]]
  | c :: rest =>
    let r := splitOnChar sep rest
    if c = sep then [] :: r
    else
      match r with
      | h :: t => (c :: h) :: t
      | [] => [[c]]

/-- `json.Unmarshal(payload, &claims)` for `jwtClaims{Exp int64}`:
decodes the payload bytes as UTF-8 text, parses exactly one JSON value
with nothing but whitespace after it, and extracts the `exp` member.
A missing `exp` member, a JSON `null` value (top-level or for `exp`),
leave the field at its zero value 0; a non-object top level, a
non-integer `exp`, or an `exp` outside `int64` range fail. -/
def unmarshalJwtClaims (payload : List Nat) : Option Int :=
  match utf8Decode payload with
  | none => none
  | some chars =>
    match parseJsonValue (4 * chars.length + 8) chars with
    | none => none
    | some (v, rest) =>
      if skipWs rest ≠ [] then none
      else
        match v with
        | Json.null => some 0
        | Json.obj kvs =>
          match jsonLookupLast ("exp") kvs with
          | none => some 0
          | some w => jsonToInt64 w
        | _ => none

/-- The error cases of `validateIDToken`, one constructor per
`fmt.Errorf` site, carrying the data interpolated into the message. -/
inductive JwtError where
  | invalidJWTFormat (got : Nat) : JwtError
  | decodePayloadFailed : JwtError
  | parseClaimsFailed : JwtError
  | missingExpClaim : JwtError
  | expired (expSec : Int) : JwtError
deriving Repr, DecidableEq

/-- The part of `validateIDToken` that runs on the middle (payload)
segment once the token has split into exactly three parts: base64url
decoding, claims parsing, the zero-`exp` check, and the expiry check
`time.Now().After(time.Unix(claims.Exp, 0))`. -/
def validatePayload (payloadSeg : List Char) (now : Int) : Option JwtError :=
  match base64UrlDecode payloadSeg with
  | none => some JwtError.decodePayloadFailed
  | some payload =>
    match unmarshalJwtClaims payload with
    | none => some JwtError.parseClaimsFailed
    | some expSec =>
      if expSec = 0 then some JwtError.missingExpClaim
      else if expSec * nanosPerSec < now then some (JwtError.expired expSec)
      else none

/-- `validateIDToken` from identityfederation.go: splits the token on
dots, requires exactly three segments, then validates the payload
segment.  `now` is the value of `time.Now()` in nanoseconds. -/
def validateIDToken (idToken : String) (now : Int) : Option JwtError :=
  match splitOnChar '.' idToken.data with
  | [_header, payloadSeg, _signature] => validatePayload payloadSeg now
  | parts => some (JwtError.invalidJWTFormat parts.length)

/-- `TokenExchangeResponse` from identityfederation.go (the `scope`
field is decoded but never used, so it is not recorded). -/
structure TokenExchangeResponse where
  accessToken : String
  tokenType : String
  expiresIn : Int
deriving Repr, DecidableEq

/-- `json.NewDecoder(resp.Body).Decode(&tokenResp)` for
`TokenExchangeResponse`: parses one JSON value from the body (trailing
data is not an error for a stream decoder), requires an object or
`null`, and decodes the `access_token`, `token_type`, `expires_in` and
`scope` fields into their Go types. -/
def decodeTokenExchangeResponse (body : String) : Option TokenExchangeResponse :=
  let chars := body.data
  match parseJsonValue (4 * chars.length + 8) chars with
  | none => none
  | some (v, _rest) =>
    match v with
    | Json.null => some { accessToken := "", tokenType := "", expiresIn := 0 }
    | Json.obj kvs => do
      let accessToken ←
        match jsonLookupLast ("access_token") kvs with
        | none => some ("")
        | some w => jsonToGoString w
      let tokenType ←
        match jsonLookupLast ("token_type") kvs with
        | none => some ("")
        | some w => jsonToGoString w
      let expiresIn ←
        match jsonLookupLast ("expires_in") kvs with
        | none => some 0
        | some w => jsonToInt64 w
      let _scope ←
        match jsonLookupLast ("scope") kvs with
        | none => some ("")
        | some w => jsonToGoString w
      some { accessToken := accessToken, tokenType := tokenType, expiresIn := expiresIn }
    | _ => none

/-- The cached `oauth2.Token` record: bearer credential, token type and
absolute expiry instant (nanoseconds; 0 models the zero `time.Time`). -/
structure Oauth2Token where
  accessToken : String
  tokenType : String
  expiry : Int
deriving Repr, DecidableEq

/-- `oauth2.Token.Valid()` from golang.org/x/oauth2: a non-empty access
token that is not expired, where a token with a set expiry counts as
expired from 10 seconds (the library's `defaultExpiryDelta`) before the
stored instant. -/
def oauth2TokenValid (t : Oauth2Token) (now : Int) : Bool :=
  t.accessToken ≠ "" && !(t.expiry ≠ 0 && t.expiry - 10 * nanosPerSec < now)

/-- The `identityFederationTokenSource` struct: its configuration fields
(`baseURL`, `clientID`, whether an `idTokenFunc` callback was provided)
and its mutex-protected mutable fields (`idToken`, `tokenSource`, the
latter holding the token cached via `oauth2.StaticTokenSource`). -/
structure identityFederationTokenSource where
  baseURL : String
  clientID : String
  idTokenFuncPresent : Bool
  idToken : String
  tokenSource : Option Oauth2Token
deriving Repr, DecidableEq

/-- Outcome of the one HTTP round trip made by `Token`: either a
transport-level error or a response with a status code and a body. -/
inductive ExchangeOutcome where
  | netError (msg : String) : ExchangeOutcome
  | response (status : Nat) (body : String) : ExchangeOutcome
deriving Repr, DecidableEq

/-- The environment a single `Token` call runs in: what the identity
provider callback would return if invoked, and how the token-exchange
endpoint would answer if called. -/
structure TokenEnv where
  providerResult : Except String String
  exchange : ExchangeOutcome
deriving Repr

/-- The error cases of `identityFederationTokenSource.Token`, one
constructor per `fmt.Errorf` site, carrying the interpolated data. -/
inductive TokenError where
  | fetchIDTokenFailed (msg : String) : TokenError
  | fetchedIDTokenInvalid (e : JwtError) : TokenError
  | exchangeRequestError (msg : String) : TokenError
  | exchangeRejected (status : Nat) (body : String) : TokenError
  | decodeResponseFailed : TokenError
deriving Repr, DecidableEq

/-- The message of the error returned when the exchange endpoint answers
with a status of 400 or above:
`"token exchange failed with status %d: %s"` applied to the status code
and the raw response body. -/
def exchangeRejectedMessage (status : Nat) (body : String) : String :=
  ("token exchange failed with status ") ++ toString status ++ (": ") ++ body

/-- Result of one `Token` call: the returned token or error, the state
of the source after the call, and how many times the identity-provider
callback and the exchange endpoint were invoked during the call. -/
structure TokenOutcome where
  result : Except TokenError Oauth2Token
  source : identityFederationTokenSource
  providerCalls : Nat
  exchangeCalls : Nat
deriving Repr

/-- The tail of `Token` from the exchange request onwards: performs the
round trip, rejects statuses of 400 and above carrying status and body,
decodes the response, caches the resulting token (built with
`Expiry: time.Now().Add(time.Duration(tokenResp.ExpiresIn) * time.Second)`)
in `s.tokenSource`, and returns it.  `pc` is the number of provider
calls made earlier in the same `Token` call. -/
def tokenExchangePhase (s : identityFederationTokenSource) (env : TokenEnv)
    (now : Int) (pc : Nat) : TokenOutcome :=
  match env.exchange with
  | ExchangeOutcome.netError m =>
    ⟨Except.error (TokenError.exchangeRequestError m), s, pc, 1⟩
  | ExchangeOutcome.response status body =>
    if 400 ≤ status then
      ⟨Except.error (TokenError.exchangeRejected status body), s, pc, 1⟩
    else
      match decodeTokenExchangeResponse body with
      | none => ⟨Except.error TokenError.decodeResponseFailed, s, pc, 1⟩
      | some r =>
        let tok : Oauth2Token :=
          { accessToken := r.accessToken
            tokenType := r.tokenType
            expiry := now + r.expiresIn * nanosPerSec }
        ⟨Except.ok tok, { s with tokenSource := some tok }, pc, 1⟩

/-- The refresh part of `Token`: if the cached identity token is empty
or no longer validates, fetch a new one from the provider callback and
validate it (failure returns without touching the cache); then run the
exchange with the cached or freshly stored identity token. -/
def tokenRefreshPhase (s : identityFederationTokenSource) (env : TokenEnv)
    (now : Int) : TokenOutcome :=
  if s.idToken = "" ∨ validateIDToken s.idToken now ≠ none then
    match env.providerResult with
    | Except.error m => ⟨Except.error (TokenError.fetchIDTokenFailed m), s, 1, 0⟩
    | Except.ok t =>
      match validateIDToken t now with
      | some e => ⟨Except.error (TokenError.fetchedIDTokenInvalid e), s, 1, 0⟩
      | none => tokenExchangePhase { s with idToken := t } env now 1
  else tokenExchangePhase s env now 0

/-- `identityFederationTokenSource.Token`: returns the token cached in
`s.tokenSource` when it is still valid, and otherwise runs one refresh
cycle (identity-token fetch if needed, then token exchange). -/
def identityFederationTokenSource.Token (s : identityFederationTokenSource)
    (env : TokenEnv) (now : Int) : TokenOutcome :=
  match s.tokenSource with
  | some tok =>
    if oauth2TokenValid tok now then ⟨Except.ok tok, s, 0, 0⟩
    else tokenRefreshPhase s env now
  | none => tokenRefreshPhase s env now

/-- The `IdentityFederation` configuration struct: the OAuth client ID
and whether an `IDTokenFunc` callback was supplied. -/
structure IdentityFederation where
  clientID : String
  idTokenFuncPresent : Bool
deriving Repr, DecidableEq

/-- What constructing the authenticated transport produces: the initial
token-source state, the error returned by the constructor (the Go
constructors return no error, modelled as `none`), and how many times
the provider callback and the exchange endpoint were invoked while
constructing (the constructor bodies only assemble structs and perform
no call). -/
structure ConstructionOutcome where
  source : identityFederationTokenSource
  err : Option String
  providerCalls : Nat
  exchangeCalls : Nat
deriving Repr, DecidableEq

/-- `newIdentityFederationTransport`: builds the token source with the
given configuration, empty identity-token cache and no cached access
token, and wraps it in an `oauth2.Transport`.  No validation is done and
no request is issued. -/
def newIdentityFederationTransport (baseURL clientID : String)
    (idTokenFuncPresent : Bool) : ConstructionOutcome :=
  { source :=
      { baseURL := baseURL
        clientID := clientID
        idTokenFuncPresent := idTokenFuncPresent
        idToken := ""
        tokenSource := none }
    err := none
    providerCalls := 0
    exchangeCalls := 0 }

/-- `IdentityFederation.HTTPClient`: builds the token source from the
configuration and wraps it in an `http.Client` whose transport carries
`oauth2.ReuseTokenSource(nil, s)`.  No validation is done and no request
is issued; the function cannot fail. -/
def IdentityFederation.HTTPClient (i : IdentityFederation)
    (baseURL : String) : ConstructionOutcome :=
  { source :=
      { baseURL := baseURL
        clientID := i.clientID
        idTokenFuncPresent := i.idTokenFuncPresent
        idToken := ""
        tokenSource := none }
    err := none
    providerCalls := 0
    exchangeCalls := 0 }

/-- JWT test tokens built exactly as the repository's `createIDToken`
helper does: header `\x7b"alg":"HS256","typ":"JWT"\x7d`, payload with
the given claims object, signature segment encoding `sig`. -/
def tokenExp100 : String :=
  "eyJhbGciOiJIUzI1NiIsInR5cCI6IkpXVCJ9.eyJleHAiOjEwMH0.c2ln"

/-- A well-formed token whose payload is `\x7b"exp":0\x7d`. -/
def tokenExpZero : String :=
  "eyJhbGciOiJIUzI1NiIsInR5cCI6IkpXVCJ9.eyJleHAiOjB9.c2ln"

/-- A well-formed token whose payload is the empty object `\x7b\x7d`. -/
def tokenNoExp : String :=
  "eyJhbGciOiJIUzI1NiIsInR5cCI6IkpXVCJ9.e30.c2ln"

/-- A token with the same payload as `tokenExp100` but a different
header segment and a different signature segment. -/
def tokenExp100Alt : String := "AAAA.eyJleHAiOjEwMH0.BBBB"

/-- Unfolding of `validateIDToken` into an explicit match on the split. -/
theorem validateIDToken_eq (t : String) (now : Int) :
    validateIDToken t now =
      match splitOnChar '.' t.data with
      | [_header, payloadSeg, _signature] => validatePayload payloadSeg now
      | parts => some (JwtError.invalidJWTFormat parts.length) := rfl

/-- `validatePayload` never produces the three-part format error. -/
theorem validatePayload_not_format (seg : List Char) (now : Int) (k : Nat) :
    validatePayload seg now ≠ some (JwtError.invalidJWTFormat k) := by
  unfold validatePayload
  cases hb : base64UrlDecode seg with
  | none => simp
  | some payload =>
    cases hu : unmarshalJwtClaims payload with
    | none => simp [hu]
    | some expSec =>
      by_cases h0 : expSec = 0
      · simp [hu, h0]
      · by_cases hlt : expSec * nanosPerSec < now
        · simp [hu, h0, hlt]
        · simp [hu, h0, hlt]

/-- C6: a token that does not split into exactly three dot-separated
segments is rejected with the invalid-JWT-format error (carrying the
actual number of segments), and validation proceeds past this check
exactly when the split yields three segments. -/
theorem c6_three_part_format_check (t : String) (now : Int) :
    ((splitOnChar '.' t.data).length ≠ 3 →
      validateIDToken t now
        = some (JwtError.invalidJWTFormat (splitOnChar '.' t.data).length)) ∧
    ((splitOnChar '.' t.data).length = 3 →
      ∀ k, validateIDToken t now ≠ some (JwtError.invalidJWTFormat k)) := by
  rw [validateIDToken_eq]
  cases hp : splitOnChar '.' t.data with
  | nil => exact ⟨fun _ => rfl, fun h => by simp at h⟩
  | cons a r1 =>
    cases r1 with
    | nil => exact ⟨fun _ => rfl, fun h => by simp at h⟩
    | cons b r2 =>
      cases r2 with
      | nil => exact ⟨fun _ => rfl, fun h => by simp at h⟩
      | cons c r3 =>
        cases r3 with
        | nil =>
          refine ⟨fun h => absurd rfl h, fun _ k => ?_⟩
          exact validatePayload_not_format b now k
        | cons d r4 => exact ⟨fun _ => rfl, fun h => by simp at h⟩

/-- C6 witness: the two-part and four-part inputs from the test suite
are rejected with the format error, and a three-part token is not. -/
theorem c6_witness :
    validateIDToken ("invalid.token") 0 = some (JwtError.invalidJWTFormat 2) ∧
    validateIDToken ("part1.part2.part3.part4") 0
      = some (JwtError.invalidJWTFormat 4) ∧
    validateIDToken tokenExp100 0 ≠ some (JwtError.invalidJWTFormat 3) := by
  refine ⟨?_, ?_, ?_⟩
  · exact (c6_three_part_format_check ("invalid.token") 0).1 (by decide)
  · exact (c6_three_part_format_check ("part1.part2.part3.part4") 0).1 (by decide)
  · exact (c6_three_part_format_check tokenExp100 0).2 (by decide) 3

/-- C7 (amended): for a well-formed token whose decoded payload carries
a nonzero integer `exp` claim, validation fails with the expired error
exactly when `now` is strictly after the expiry instant, and succeeds
exactly when `now` is at or before it (the Go check is
`time.Now().After(exp)`, which is strict). -/
theorem c7_expiry_strict_boundary (t : String) (now : Int)
    (header payloadSeg signature : List Char) (payload : List Nat) (expSec : Int)
    (hsplit : splitOnChar '.' t.data = [header, payloadSeg, signature])
    (hdecode : base64UrlDecode payloadSeg = some payload)
    (hclaims : unmarshalJwtClaims payload = some expSec)
    (hnz : expSec ≠ 0) :
    (validateIDToken t now = some (JwtError.expired expSec) ↔ expSec * nanosPerSec < now) ∧
    (validateIDToken t now = none ↔ now ≤ expSec * nanosPerSec) := by
  have hv : validateIDToken t now = validatePayload payloadSeg now := by
    unfold validateIDToken
    rw [hsplit]
  rw [hv]
  unfold validatePayload
  rw [hdecode]
  simp only [hclaims]
  rw [if_neg hnz]
  by_cases hlt : expSec * nanosPerSec < now
  · rw [if_pos hlt]
    constructor
    · exact ⟨fun _ => hlt, fun _ => rfl⟩
    · constructor
      · intro h
        exact absurd h (by simp)
      · intro h
        omega
  · rw [if_neg hlt]
    constructor
    · constructor
      · intro h
        exact absurd h (by simp)
      · intro h
        exact absurd h hlt
    · constructor
      · intro _
        omega
      · intro _
        rfl

/-- C7 counterexample: at the instant `now = exp` exactly (here
`exp = 100` seconds), the claim demands an expired-token failure, but
`validateIDToken` succeeds: the code's check is strictly `now > exp`. -/
theorem c7_counterexample :
    validateIDToken tokenExp100 (100 * nanosPerSec) = none ∧
    ¬ (100 * nanosPerSec : Int) < 100 * nanosPerSec := by
  exact ⟨rfl, by decide⟩

/-- C7 witness: one instant strictly past expiry is rejected as expired,
one instant before expiry passes validation. -/
theorem c7_witness :
    validateIDToken tokenExp100 (100 * nanosPerSec + 1)
      = some (JwtError.expired 100) ∧
    validateIDToken tokenExp100 0 = none := by
  constructor
  · exact (c7_expiry_strict_boundary tokenExp100 (100 * nanosPerSec + 1)
      _ _ _ _ 100 rfl rfl rfl (by decide)).1.mpr (by decide)
  · exact (c7_expiry_strict_boundary tokenExp100 0
      _ _ _ _ 100 rfl rfl rfl (by decide)).2.mpr (by decide)

/-- C8: validation never looks at the header or signature segments: two
three-part tokens with the same payload segment validate identically at
the same instant. -/
theorem c8_signature_never_checked (t1 t2 : String) (now : Int)
    (h1 p s1 h2 s2 : List Char)
    (hsplit1 : splitOnChar '.' t1.data = [h1, p, s1])
    (hsplit2 : splitOnChar '.' t2.data = [h2, p, s2]) :
    validateIDToken t1 now = validateIDToken t2 now := by
  have e1 : validateIDToken t1 now = validatePayload p now := by
    unfold validateIDToken
    rw [hsplit1]
  have e2 : validateIDToken t2 now = validatePayload p now := by
    unfold validateIDToken
    rw [hsplit2]
  rw [e1, e2]

/-- C8 witness: a token with a different header and a different
signature but the same payload validates the same as `tokenExp100`. -/
theorem c8_witness :
    validateIDToken tokenExp100 0 = validateIDToken tokenExp100Alt 0 := by
  exact c8_signature_never_checked tokenExp100 tokenExp100Alt 0 _ _ _ _ _ rfl rfl

/-- C9: a well-formed token whose payload explicitly carries `exp` equal
to 0 is rejected with the missing-exp-claim error, exactly as a payload
with no `exp` member at all: the `int64` claims field cannot tell an
absent claim from a zero one. -/
theorem c9_exp_zero_indistinguishable :
    ∀ now : Int,
      validateIDToken tokenExpZero now = some JwtError.missingExpClaim ∧
      validateIDToken tokenNoExp now = some JwtError.missingExpClaim := by
  intro now
  exact ⟨rfl, rfl⟩

/-- The exchange phase reports exactly one exchange round trip. -/
theorem tokenExchangePhase_exchangeCalls (s : identityFederationTokenSource)
    (env : TokenEnv) (now : Int) (pc : Nat) :
    (tokenExchangePhase s env now pc).exchangeCalls = 1 := by
  unfold tokenExchangePhase
  cases he : env.exchange with
  | netError m => rfl
  | response status body =>
    by_cases hs : 400 ≤ status
    · simp [hs]
    · simp only [hs, if_false]
      cases hd : decodeTokenExchangeResponse body with
      | none => simp [hd]
      | some r => simp [hd]

/-- The exchange phase performs no provider call of its own. -/
theorem tokenExchangePhase_providerCalls (s : identityFederationTokenSource)
    (env : TokenEnv) (now : Int) (pc : Nat) :
    (tokenExchangePhase s env now pc).providerCalls = pc := by
  unfold tokenExchangePhase
  cases he : env.exchange with
  | netError m => rfl
  | response status body =>
    by_cases hs : 400 ≤ status
    · simp [hs]
    · simp only [hs, if_false]
      cases hd : decodeTokenExchangeResponse body with
      | none => simp [hd]
      | some r => simp [hd]

/-- The exchange phase never touches the cached identity token. -/
theorem tokenExchangePhase_idToken (s : identityFederationTokenSource)
    (env : TokenEnv) (now : Int) (pc : Nat) :
    (tokenExchangePhase s env now pc).source.idToken = s.idToken := by
  unfold tokenExchangePhase
  cases he : env.exchange with
  | netError m => rfl
  | response status body =>
    by_cases hs : 400 ≤ status
    · simp [hs]
    · simp only [hs, if_false]
      cases hd : decodeTokenExchangeResponse body with
      | none => simp [hd]
      | some r => simp [hd]

/-- The exchange phase never produces an identity-fetch error. -/
theorem tokenExchangePhase_not_fetchError (s : identityFederationTokenSource)
    (env : TokenEnv) (now : Int) (pc : Nat) (m : String) :
    (tokenExchangePhase s env now pc).result
      ≠ Except.error (TokenError.fetchIDTokenFailed m) := by
  unfold tokenExchangePhase
  cases he : env.exchange with
  | netError mm => simp
  | response status body =>
    by_cases hs : 400 ≤ status
    · simp [hs]
    · simp only [hs, if_false]
      cases hd : decodeTokenExchangeResponse body with
      | none => simp [hd]
      | some r => simp [hd]

/-- The exchange phase never produces an invalid-identity-token error. -/
theorem tokenExchangePhase_not_invalidError (s : identityFederationTokenSource)
    (env : TokenEnv) (now : Int) (pc : Nat) (e : JwtError) :
    (tokenExchangePhase s env now pc).result
      ≠ Except.error (TokenError.fetchedIDTokenInvalid e) := by
  unfold tokenExchangePhase
  cases he : env.exchange with
  | netError mm => simp
  | response status body =>
    by_cases hs : 400 ≤ status
    · simp [hs]
    · simp only [hs, if_false]
      cases hd : decodeTokenExchangeResponse body with
      | none => simp [hd]
      | some r => simp [hd]

/-- When the endpoint answers with status 400 or above, the exchange
phase fails with the rejection error and leaves every field of the
source unchanged. -/
theorem tokenExchangePhase_reject (s : identityFederationTokenSource)
    (env : TokenEnv) (now : Int) (pc : Nat) (status : Nat) (body : String)
    (he : env.exchange = ExchangeOutcome.response status body)
    (hs : 400 ≤ status) :
    tokenExchangePhase s env now pc
      = ⟨Except.error (TokenError.exchangeRejected status body), s, pc, 1⟩ := by
  unfold tokenExchangePhase
  rw [he]
  simp [hs]

/-- When the endpoint answers below 400 with a decodable body, the
exchange phase returns the token built from the response with expiry
`now + expires_in` seconds, and caches exactly that token. -/
theorem tokenExchangePhase_success (s : identityFederationTokenSource)
    (env : TokenEnv) (now : Int) (pc : Nat) (status : Nat) (body : String)
    (r : TokenExchangeResponse)
    (he : env.exchange = ExchangeOutcome.response status body)
    (hs : ¬ 400 ≤ status)
    (hd : decodeTokenExchangeResponse body = some r) :
    tokenExchangePhase s env now pc
      = ⟨Except.ok (Oauth2Token.mk r.accessToken r.tokenType (now + r.expiresIn * nanosPerSec)),
         { s with
             tokenSource := some
               (Oauth2Token.mk r.accessToken r.tokenType (now + r.expiresIn * nanosPerSec)) },
         pc, 1⟩ := by
  unfold tokenExchangePhase
  rw [he]
  simp [hs, hd]

/-- Unfolding of the refresh phase when the cached identity token is
empty or invalid: the provider callback is consulted. -/
theorem tokenRefreshPhase_eq_fetch (s : identityFederationTokenSource)
    (env : TokenEnv) (now : Int)
    (h : s.idToken = "" ∨ validateIDToken s.idToken now ≠ none) :
    tokenRefreshPhase s env now =
      match env.providerResult with
      | Except.error m => ⟨Except.error (TokenError.fetchIDTokenFailed m), s, 1, 0⟩
      | Except.ok t =>
        match validateIDToken t now with
        | some e => ⟨Except.error (TokenError.fetchedIDTokenInvalid e), s, 1, 0⟩
        | none => tokenExchangePhase { s with idToken := t } env now 1 := by
  unfold tokenRefreshPhase
  rw [if_pos h]

/-- Unfolding of the refresh phase when the cached identity token is
present and still validates: the provider callback is skipped and the
exchange runs with the cached token. -/
theorem tokenRefreshPhase_eq_cached (s : identityFederationTokenSource)
    (env : TokenEnv) (now : Int)
    (h1 : ¬ s.idToken = "") (h2 : validateIDToken s.idToken now = none) :
    tokenRefreshPhase s env now = tokenExchangePhase s env now 0 := by
  unfold tokenRefreshPhase
  rw [if_neg (by simp [h1, h2])]

/-- Unfolding of `Token` when the cached access token is still valid. -/
theorem Token_eq_cached_valid (s : identityFederationTokenSource)
    (env : TokenEnv) (now : Int) (tok : Oauth2Token)
    (hts : s.tokenSource = some tok) (hv : oauth2TokenValid tok now = true) :
    s.Token env now = ⟨Except.ok tok, s, 0, 0⟩ := by
  unfold identityFederationTokenSource.Token
  rw [hts]
  simp [hv]

/-- Unfolding of `Token` when no access token is cached. -/
theorem Token_eq_refresh_none (s : identityFederationTokenSource)
    (env : TokenEnv) (now : Int) (hts : s.tokenSource = none) :
    s.Token env now = tokenRefreshPhase s env now := by
  unfold identityFederationTokenSource.Token
  rw [hts]

/-- Unfolding of `Token` when the cached access token is stale. -/
theorem Token_eq_refresh_invalid (s : identityFederationTokenSource)
    (env : TokenEnv) (now : Int) (tok : Oauth2Token)
    (hts : s.tokenSource = some tok) (hv : oauth2TokenValid tok now = false) :
    s.Token env now = tokenRefreshPhase s env now := by
  unfold identityFederationTokenSource.Token
  rw [hts]
  simp [hv]

/-- Provider-call accounting of the refresh phase: at most one call,
a call happens only when the cache is empty or invalid, and a valid
cached identity token is reused untouched. -/
theorem tokenRefreshPhase_provider_facts (s : identityFederationTokenSource)
    (env : TokenEnv) (now : Int) :
    (tokenRefreshPhase s env now).providerCalls ≤ 1 ∧
    ((tokenRefreshPhase s env now).providerCalls = 1 →
      s.idToken = "" ∨ validateIDToken s.idToken now ≠ none) ∧
    (s.idToken ≠ "" → validateIDToken s.idToken now = none →
      (tokenRefreshPhase s env now).providerCalls = 0 ∧
      (tokenRefreshPhase s env now).source.idToken = s.idToken) := by
  by_cases hc : s.idToken = "" ∨ validateIDToken s.idToken now ≠ none
  · rw [tokenRefreshPhase_eq_fetch s env now hc]
    have hside : s.idToken ≠ "" → validateIDToken s.idToken now = none → False := by
      intro h1 h2
      rcases hc with hc | hc
      · exact h1 hc
      · exact hc h2
    cases hp : env.providerResult with
    | error m =>
      exact ⟨by simp, fun _ => hc, fun h1 h2 => (hside h1 h2).elim⟩
    | ok t =>
      cases hv : validateIDToken t now with
      | some e =>
        exact ⟨by simp [hv], fun _ => hc, fun h1 h2 => (hside h1 h2).elim⟩
      | none =>
        exact ⟨by simp [hv, tokenExchangePhase_providerCalls],
               fun _ => hc, fun h1 h2 => (hside h1 h2).elim⟩
  · push_neg at hc
    rw [tokenRefreshPhase_eq_cached s env now hc.1 hc.2]
    refine ⟨?_, ?_, fun _ _ => ⟨?_, ?_⟩⟩
    · rw [tokenExchangePhase_providerCalls]
      exact Nat.zero_le 1
    · rw [tokenExchangePhase_providerCalls]
      intro h01
      exact absurd h01 (by decide)
    · rw [tokenExchangePhase_providerCalls]
    · rw [tokenExchangePhase_idToken]

/-- C4: within one `Token` call the identity-provider callback runs at
most once, it runs only when the cached identity token is absent or no
longer validates, and a still-valid cached identity token is reused
without consulting the provider. -/
theorem c4_provider_at_most_once (s : identityFederationTokenSource)
    (env : TokenEnv) (now : Int) :
    (s.Token env now).providerCalls ≤ 1 ∧
    ((s.Token env now).providerCalls = 1 →
      s.idToken = "" ∨ validateIDToken s.idToken now ≠ none) ∧
    (s.idToken ≠ "" → validateIDToken s.idToken now = none →
      (s.Token env now).providerCalls = 0 ∧
      (s.Token env now).source.idToken = s.idToken) := by
  cases hts : s.tokenSource with
  | some tok =>
    cases hv : oauth2TokenValid tok now with
    | true =>
      rw [Token_eq_cached_valid s env now tok hts hv]
      refine ⟨by simp, fun h01 => ?_, fun _ _ => ⟨rfl, rfl⟩⟩
      simp at h01
    | false =>
      rw [Token_eq_refresh_invalid s env now tok hts hv]
      exact tokenRefreshPhase_provider_facts s env now
  | none =>
    rw [Token_eq_refresh_none s env now hts]
    exact tokenRefreshPhase_provider_facts s env now

/-- C4 witness: a source holding a stale access token but a valid cached
identity token refreshes without invoking the provider and keeps the
cached identity token. -/
theorem c4_witness :
    ((identityFederationTokenSource.mk ("https://api.tailscale.com") ("cid")
        true tokenExp100 none).Token
      (TokenEnv.mk (Except.error ("unreachable"))
        (ExchangeOutcome.response 500 ("boom"))) 0).providerCalls = 0 := by
  exact ((c4_provider_at_most_once _ _ 0).2.2 (by decide) (by rfl)).1

/-- Identity-token cache discipline of the refresh phase: identity-fetch
failures leave the source untouched, and any change to the cached
identity token stores a value that validated at this instant. -/
theorem tokenRefreshPhase_cache_facts (s : identityFederationTokenSource)
    (env : TokenEnv) (now : Int) :
    (∀ m, (tokenRefreshPhase s env now).result
        = Except.error (TokenError.fetchIDTokenFailed m) →
      (tokenRefreshPhase s env now).source = s) ∧
    (∀ e, (tokenRefreshPhase s env now).result
        = Except.error (TokenError.fetchedIDTokenInvalid e) →
      (tokenRefreshPhase s env now).source = s) ∧
    ((tokenRefreshPhase s env now).source.idToken ≠ s.idToken →
      validateIDToken ((tokenRefreshPhase s env now).source.idToken) now = none) := by
  by_cases hc : s.idToken = "" ∨ validateIDToken s.idToken now ≠ none
  · rw [tokenRefreshPhase_eq_fetch s env now hc]
    cases hp : env.providerResult with
    | error m =>
      refine ⟨fun _ _ => rfl, fun e he => ?_, fun hne => ?_⟩
      · simp at he
      · exact absurd rfl hne
    | ok t =>
      cases hv : validateIDToken t now with
      | some e =>
        refine ⟨fun m hm => ?_, fun _ _ => by simp [hv], fun hne => ?_⟩
        · simp [hv] at hm
        · simp [hv] at hne
      | none =>
        refine ⟨fun m hm => ?_, fun e he => ?_, fun _ => ?_⟩
        · simp only [hv] at hm
          exact absurd hm (tokenExchangePhase_not_fetchError _ env now 1 m)
        · simp only [hv] at he
          exact absurd he (tokenExchangePhase_not_invalidError _ env now 1 e)
        · simp only [hv]
          rw [tokenExchangePhase_idToken]
          exact hv
  · push_neg at hc
    rw [tokenRefreshPhase_eq_cached s env now hc.1 hc.2]
    refine ⟨fun m hm => ?_, fun e he => ?_, fun hne => ?_⟩
    · exact absurd hm (tokenExchangePhase_not_fetchError s env now 0 m)
    · exact absurd he (tokenExchangePhase_not_invalidError s env now 0 e)
    · exact absurd (tokenExchangePhase_idToken s env now 0) hne

/-- C10: every value ever stored in the cached identity-token field
passed validation at the instant it was stored — a provider failure or
an invalid fetched token ends the call with an error and leaves the
source exactly as it was, and whenever the cached identity token
differs after the call, the new value validates. -/
theorem c10_cache_only_validated (s : identityFederationTokenSource)
    (env : TokenEnv) (now : Int) :
    (∀ m, (s.Token env now).result
        = Except.error (TokenError.fetchIDTokenFailed m) →
      (s.Token env now).source = s) ∧
    (∀ e, (s.Token env now).result
        = Except.error (TokenError.fetchedIDTokenInvalid e) →
      (s.Token env now).source = s) ∧
    ((s.Token env now).source.idToken ≠ s.idToken →
      validateIDToken ((s.Token env now).source.idToken) now = none) := by
  cases hts : s.tokenSource with
  | some tok =>
    cases hv : oauth2TokenValid tok now with
    | true =>
      rw [Token_eq_cached_valid s env now tok hts hv]
      refine ⟨fun m hm => ?_, fun e he => ?_, fun hne => ?_⟩
      · simp at hm
      · simp at he
      · exact absurd rfl hne
    | false =>
      rw [Token_eq_refresh_invalid s env now tok hts hv]
      exact tokenRefreshPhase_cache_facts s env now
  | none =>
    rw [Token_eq_refresh_none s env now hts]
    exact tokenRefreshPhase_cache_facts s env now

/-- C10 witness: when the provider fails, `Token` reports the fetch
error and the source (in particular its cached identity token) is
exactly the source before the call. -/
theorem c10_witness :
    ((identityFederationTokenSource.mk ("https://api.tailscale.com") ("cid")
        true ("") none).Token
      (TokenEnv.mk (Except.error ("boom"))
        (ExchangeOutcome.response 200 ("ok"))) 0).source
      = identityFederationTokenSource.mk ("https://api.tailscale.com") ("cid")
          true ("") none := by
  exact (c10_cache_only_validated _ _ 0).1 ("boom") (by rfl)

/-- C5: whenever the exchange round trip actually happens and the
endpoint answers with a status of 400 or above, `Token` fails with the
rejection error carrying exactly that status code and raw body (whose
rendered message interpolates both), and the cached access token is
unchanged. -/
theorem c5_rejection_carries_status_and_body (s : identityFederationTokenSource)
    (env : TokenEnv) (now : Int) (status : Nat) (body : String)
    (he : env.exchange = ExchangeOutcome.response status body)
    (hs : 400 ≤ status)
    (hx : (s.Token env now).exchangeCalls = 1) :
    (s.Token env now).result
      = Except.error (TokenError.exchangeRejected status body) ∧
    (s.Token env now).source.tokenSource = s.tokenSource ∧
    exchangeRejectedMessage status body
      = ("token exchange failed with status ") ++ toString status ++ (": ") ++ body := by
  have main : ∀ s1 : identityFederationTokenSource, s1.tokenSource = s.tokenSource →
      ∀ pc, (tokenExchangePhase s1 env now pc).result
          = Except.error (TokenError.exchangeRejected status body) ∧
        (tokenExchangePhase s1 env now pc).source.tokenSource = s.tokenSource := by
    intro s1 hs1 pc
    rw [tokenExchangePhase_reject s1 env now pc status body he hs]
    exact ⟨rfl, hs1⟩
  cases hts : s.tokenSource with
  | some tok =>
    cases hv : oauth2TokenValid tok now with
    | true =>
      rw [Token_eq_cached_valid s env now tok hts hv] at hx
      simp at hx
    | false =>
      rw [Token_eq_refresh_invalid s env now tok hts hv] at hx ⊢
      by_cases hc : s.idToken = "" ∨ validateIDToken s.idToken now ≠ none
      · rw [tokenRefreshPhase_eq_fetch s env now hc] at hx ⊢
        cases hp : env.providerResult with
        | error m =>
          simp [hp] at hx
        | ok t =>
          cases hvt : validateIDToken t now with
          | some e =>
            simp [hp, hvt] at hx
          | none =>
            simp only [hp, hvt]
            exact ⟨(main { s with idToken := t } rfl 1).1,
                   ((main { s with idToken := t } rfl 1).2).trans hts, rfl⟩
      · push_neg at hc
        rw [tokenRefreshPhase_eq_cached s env now hc.1 hc.2]
        exact ⟨(main s rfl 0).1, ((main s rfl 0).2).trans hts, rfl⟩
  | none =>
    rw [Token_eq_refresh_none s env now hts] at hx ⊢
    by_cases hc : s.idToken = "" ∨ validateIDToken s.idToken now ≠ none
    · rw [tokenRefreshPhase_eq_fetch s env now hc] at hx ⊢
      cases hp : env.providerResult with
      | error m =>
        simp [hp] at hx
      | ok t =>
        cases hvt : validateIDToken t now with
        | some e =>
          simp [hp, hvt] at hx
        | none =>
          simp only [hp, hvt]
          exact ⟨(main { s with idToken := t } rfl 1).1,
                 ((main { s with idToken := t } rfl 1).2).trans hts, rfl⟩
    · push_neg at hc
      rw [tokenRefreshPhase_eq_cached s env now hc.1 hc.2]
      exact ⟨(main s rfl 0).1, ((main s rfl 0).2).trans hts, rfl⟩

/-- C5 witness: a 401 rejection with an error body is reported with
that status and body, and nothing is cached. -/
theorem c5_witness :
    (((identityFederationTokenSource.mk ("https://api.tailscale.com") ("cid")
        true tokenExp100 none).Token
      (TokenEnv.mk (Except.ok tokenExp100)
        (ExchangeOutcome.response 401
          ("\x7b\x22error\x22:\x22invalid_client\x22\x7d"))) 0).result
      = Except.error (TokenError.exchangeRejected 401
          ("\x7b\x22error\x22:\x22invalid_client\x22\x7d"))) ∧
    ((identityFederationTokenSource.mk ("https://api.tailscale.com") ("cid")
        true tokenExp100 none).Token
      (TokenEnv.mk (Except.ok tokenExp100)
        (ExchangeOutcome.response 401
          ("\x7b\x22error\x22:\x22invalid_client\x22\x7d"))) 0).source.tokenSource
      = none := by
  refine ⟨?_, ?_⟩
  · exact (c5_rejection_carries_status_and_body _ _ 0 401 _ rfl (by decide) (by rfl)).1
  · exact (c5_rejection_carries_status_and_body _ _ 0 401 _ rfl (by decide) (by rfl)).2.1

/-- A successful exchange-endpoint response body, as in the test suite:
access token `tok1`, token type `Bearer`, lifetime 3600 seconds. -/
def exchangeBodyOk : String :=
  "\x7b\x22access_token\x22:\x22tok1\x22,\x22token_type\x22:\x22Bearer\x22,\x22expires_in\x22:3600\x7d"

/-- A freshly constructed token source with a valid provider token and a
successful exchange ahead of it. -/
def freshSource : identityFederationTokenSource :=
  identityFederationTokenSource.mk ("https://api.tailscale.com") ("cid") true ("") none

/-- An environment whose provider returns `tokenExp100` and whose
exchange endpoint accepts with `exchangeBodyOk`. -/
def okEnv : TokenEnv :=
  TokenEnv.mk (Except.ok tokenExp100) (ExchangeOutcome.response 200 exchangeBodyOk)

/-- C1 counterexample: exchanging at `now = 0` with `expires_in = 3600`
caches a token whose expiry is `now + 3600` seconds — not
`now + 3600 − 300` seconds as the claimed 5-minute safety margin would
give: no margin is subtracted when the expiry is computed. -/
theorem c1_counterexample :
    (freshSource.Token okEnv 0).source.tokenSource
      = some (Oauth2Token.mk ("tok1") ("Bearer") (3600 * nanosPerSec)) ∧
    (3600 : Int) * nanosPerSec ≠ 0 + 3600 * nanosPerSec - 300 * nanosPerSec := by
  exact ⟨rfl, by decide⟩

/-- C1 (amended): whenever the exchange round trip happens and the
endpoint accepts with a decodable body, the access token cached (and
returned) carries the absolute expiry `now + expires_in` seconds, with
no safety margin subtracted. -/
theorem c1_expiry_no_margin (s : identityFederationTokenSource)
    (env : TokenEnv) (now : Int) (status : Nat) (body : String)
    (r : TokenExchangeResponse)
    (he : env.exchange = ExchangeOutcome.response status body)
    (hs : ¬ 400 ≤ status)
    (hd : decodeTokenExchangeResponse body = some r)
    (hx : (s.Token env now).exchangeCalls = 1) :
    (s.Token env now).source.tokenSource
      = some (Oauth2Token.mk r.accessToken r.tokenType (now + r.expiresIn * nanosPerSec)) ∧
    (s.Token env now).result
      = Except.ok (Oauth2Token.mk r.accessToken r.tokenType (now + r.expiresIn * nanosPerSec)) := by
  have main : ∀ s1 : identityFederationTokenSource, ∀ pc,
      (tokenExchangePhase s1 env now pc).source.tokenSource
        = some (Oauth2Token.mk r.accessToken r.tokenType (now + r.expiresIn * nanosPerSec)) ∧
      (tokenExchangePhase s1 env now pc).result
        = Except.ok (Oauth2Token.mk r.accessToken r.tokenType (now + r.expiresIn * nanosPerSec)) := by
    intro s1 pc
    rw [tokenExchangePhase_success s1 env now pc status body r he hs hd]
    exact ⟨rfl, rfl⟩
  cases hts : s.tokenSource with
  | some tok =>
    cases hv : oauth2TokenValid tok now with
    | true =>
      rw [Token_eq_cached_valid s env now tok hts hv] at hx
      simp at hx
    | false =>
      rw [Token_eq_refresh_invalid s env now tok hts hv] at hx ⊢
      by_cases hc : s.idToken = "" ∨ validateIDToken s.idToken now ≠ none
      · rw [tokenRefreshPhase_eq_fetch s env now hc] at hx ⊢
        cases hp : env.providerResult with
        | error m =>
          simp [hp] at hx
        | ok t =>
          cases hvt : validateIDToken t now with
          | some e =>
            simp [hp, hvt] at hx
          | none =>
            simp only [hp, hvt]
            exact main { s with idToken := t } 1
      · push_neg at hc
        rw [tokenRefreshPhase_eq_cached s env now hc.1 hc.2]
        exact main s 0
  | none =>
    rw [Token_eq_refresh_none s env now hts] at hx ⊢
    by_cases hc : s.idToken = "" ∨ validateIDToken s.idToken now ≠ none
    · rw [tokenRefreshPhase_eq_fetch s env now hc] at hx ⊢
      cases hp : env.providerResult with
      | error m =>
        simp [hp] at hx
      | ok t =>
        cases hvt : validateIDToken t now with
        | some e =>
          simp [hp, hvt] at hx
        | none =>
          simp only [hp, hvt]
          exact main { s with idToken := t } 1
    · push_neg at hc
      rw [tokenRefreshPhase_eq_cached s env now hc.1 hc.2]
      exact main s 0

/-- C1 witness: the concrete successful exchange of the counterexample
run, seen through the amended statement. -/
theorem c1_witness :
    (freshSource.Token okEnv 0).result
      = Except.ok (Oauth2Token.mk ("tok1") ("Bearer") (0 + 3600 * nanosPerSec)) := by
  exact (c1_expiry_no_margin freshSource okEnv 0 200 exchangeBodyOk
    (TokenExchangeResponse.mk ("tok1") ("Bearer") 3600)
    rfl (by decide) (by rfl) (by rfl)).2

/-- C2 counterexample: constructing the transport — through either
constructor — with a well-formed configuration performs zero provider
invocations and zero exchange round trips: no exchange cycle happens at
construction time. -/
theorem c2_counterexample :
    (IdentityFederation.HTTPClient (IdentityFederation.mk ("cid") true)
        ("https://api.tailscale.com")).providerCalls = 0 ∧
    (IdentityFederation.HTTPClient (IdentityFederation.mk ("cid") true)
        ("https://api.tailscale.com")).exchangeCalls = 0 ∧
    (newIdentityFederationTransport ("https://api.tailscale.com") ("cid")
        true).providerCalls = 0 ∧
    (newIdentityFederationTransport ("https://api.tailscale.com") ("cid")
        true).exchangeCalls = 0 := by
  exact ⟨rfl, rfl, rfl, rfl⟩

/-- C2 (amended): construction only assembles the transport — it cannot
fail, performs no provider call and no exchange, and leaves both caches
empty; the full exchange cycle runs at the first token request, which is
where a failing provider (and any other misconfiguration) surfaces. -/
theorem c2_construction_is_lazy (i : IdentityFederation) (baseURL : String)
    (env : TokenEnv) (now : Int) (m : String)
    (hm : env.providerResult = Except.error m) :
    (i.HTTPClient baseURL).err = none ∧
    (i.HTTPClient baseURL).providerCalls = 0 ∧
    (i.HTTPClient baseURL).exchangeCalls = 0 ∧
    (i.HTTPClient baseURL).source.idToken = "" ∧
    (i.HTTPClient baseURL).source.tokenSource = none ∧
    ((i.HTTPClient baseURL).source.Token env now).result
      = Except.error (TokenError.fetchIDTokenFailed m) := by
  refine ⟨rfl, rfl, rfl, rfl, rfl, ?_⟩
  rw [Token_eq_refresh_none _ env now rfl]
  rw [tokenRefreshPhase_eq_fetch _ env now (Or.inl rfl)]
  simp only [hm]

/-- C2 witness: a concrete construction with a provider that fails:
the constructor reports no error and performs no calls, and the first
token request returns the provider failure. -/
theorem c2_witness :
    ((IdentityFederation.HTTPClient (IdentityFederation.mk ("cid") true)
        ("https://api.tailscale.com")).source.Token
      (TokenEnv.mk (Except.error ("boom"))
        (ExchangeOutcome.response 200 exchangeBodyOk)) 0).result
      = Except.error (TokenError.fetchIDTokenFailed ("boom")) := by
  exact (c2_construction_is_lazy (IdentityFederation.mk ("cid") true)
    ("https://api.tailscale.com") _ 0 ("boom") rfl).2.2.2.2.2

/-- C3 counterexample: construction with an empty client ID — and
likewise with no identity-token callback — succeeds with no error and
no network call, where the claim demands a configuration failure. -/
theorem c3_counterexample :
    (IdentityFederation.HTTPClient (IdentityFederation.mk ("") true)
        ("https://api.tailscale.com")).err = none ∧
    (IdentityFederation.HTTPClient (IdentityFederation.mk ("cid") false)
        ("https://api.tailscale.com")).err = none ∧
    (newIdentityFederationTransport ("https://api.tailscale.com") ("") true).err
      = none := by
  exact ⟨rfl, rfl, rfl⟩

/-- C3 (amended): construction validates nothing and can never fail —
for every configuration, with or without a client ID or a callback, both
constructors return no error and make zero provider and exchange calls. -/
theorem c3_no_construction_validation (i : IdentityFederation) (baseURL : String) :
    (i.HTTPClient baseURL).err = none ∧
    (i.HTTPClient baseURL).providerCalls = 0 ∧
    (i.HTTPClient baseURL).exchangeCalls = 0 ∧
    (newIdentityFederationTransport baseURL i.clientID i.idTokenFuncPresent).err
      = none ∧
    (newIdentityFederationTransport baseURL i.clientID
        i.idTokenFuncPresent).exchangeCalls = 0 := by
  exact ⟨rfl, rfl, rfl, rfl, rfl⟩

/-- C3 witness: the amended statement at a concrete configuration with
neither a client ID nor a callback. -/
theorem c3_witness :
    (IdentityFederation.HTTPClient (IdentityFederation.mk ("") false)
        ("https://api.tailscale.com")).err = none := by
  exact (c3_no_construction_validation (IdentityFederation.mk ("") false)
    ("https://api.tailscale.com")).1

/-- C9 witness: the indistinguishability at one concrete instant. -/
theorem c9_witness :
    validateIDToken tokenExpZero 5 = some JwtError.missingExpClaim ∧
    validateIDToken tokenNoExp 5 = some JwtError.missingExpClaim := by
  exact c9_exp_zero_indistinguishable 5
